import Mathlib

/-!
Verification of the blob cache (pkg/blobcache/blobcache.go).

The Go code is shallowly embedded: the filesystem is an explicit value, each
os.Stat call is a lookup in it, and Go errors are Option String (none = nil).
-/

set_option autoImplicit false

/-- Digests (opencontainers go-digest) are strings; Digest.String() is the
identity on the underlying string. -/
abbrev Digest := String

/-- Outcome of an os.Stat call on a path: success with the file size,
an error satisfying os.IsNotExist, or any other error (carrying the
message of the returned error, e.g. a PathError naming the op and path). -/
inductive StatResult where
  | ok (size : Int)
  | notExist
  | otherErr (msg : String)
  deriving DecidableEq, Repr

/-- The filesystem as seen through os.Stat: what stat returns on each path. -/
abbrev FS := String → StatResult

/-- A Go error value: none is nil. A non-nil error is represented by the
string its Error() method returns. -/
abbrev GoError := Option String

/-- pkg/errors Wrap: returns nil when err is nil, otherwise an error whose
message is the annotation, a colon and a space, then the cause's message. -/
def perrorsWrap (err : GoError) (msg : String) : GoError :=
  err.map (fun e => msg ++ ": " ++ e)

/-- os.IsNotExist on a stat outcome's error component: true exactly for the
does-not-exist error; false for nil (stat succeeded) and for other errors. -/
def osIsNotExist : StatResult → Bool
  | .notExist => true
  | _ => false

/-- types.ImageTransport, reduced to the one capability used here (Name). -/
structure ImageTransport where
  name : String
  deriving DecidableEq, Repr

/-- context.Context, abstract token. -/
structure GoContext where
  id : Nat
  deriving DecidableEq, Repr

/-- types.SystemContext, abstract token. -/
structure SystemContext where
  id : Nat
  deriving DecidableEq, Repr

/-- types.ImageReference: the wrapped remote endpoint, as the record of the
capabilities the blob cache consumes. DockerReference may be nil (none). -/
structure ImageReference where
  transport : ImageTransport
  stringWithinTransport : String
  dockerReference : Option String
  policyConfigurationIdentity : String
  policyConfigurationNamespaces : List String
  deleteImage : GoContext → Option SystemContext → GoError

/-- transports.ImageName(ref) = ref.Transport().Name() + ":" +
ref.StringWithinTransport() (containers/image transports package). -/
def transportsImageName (ref : ImageReference) : String :=
  ref.transport.name ++ ":" ++ ref.stringWithinTransport

/-- types.LayerCompression (dependency containers/image/v5/types): an int,
with PreserveOriginal = 0, Compress = 1, Decompress = 2. -/
abbrev LayerCompression := Int

def PreserveOriginal : LayerCompression := 0

def Compress : LayerCompression := 1

def Decompress : LayerCompression := 2

/-- The BlobCache object: wrapped reference, cache directory, compression. -/
structure BlobCache where
  reference : ImageReference
  directory : String
  compress : LayerCompression

/-- The blob descriptor passed to HasBlob. The Go code receives a
types.BlobInfo and reads only its Digest and Size fields; the isConfig flag
is the config marker of the spec's BlobDescriptor (section 3) and is never
consulted by HasBlob. -/
structure BlobInfo where
  digest : Digest
  size : Int
  isConfig : Bool

/-- Go path/filepath.Join for a clean directory and a clean relative name:
the directory, the separator, the name. -/
def filepathJoin (dir name : String) : String :=
  dir ++ "/" ++ name

/-- makeFilename from blobcache.go: the digest string, with a fixed
suffix appended when the blob is a config. -/
def makeFilename (blobSum : Digest) (isConfig : Bool) : String :=
  if isConfig then blobSum ++ ".config" else blobSum

/-- NewBlobCache from blobcache.go: reject an empty directory, reject a
LayerCompression outside the three recognized values, otherwise build the
store from the three arguments. Defined as a pure function (no filesystem
argument): the constructor performs no I/O. -/
def NewBlobCache (ref : ImageReference) (directory : String)
    (compress : LayerCompression) : Except String BlobCache :=
  if directory = "" then
    .error ("error creating cache around reference \"" ++ transportsImageName ref ++
      "\": no directory specified")
  else if compress = Compress ∨ compress = Decompress ∨ compress = PreserveOriginal then
    .ok { reference := ref, directory := directory, compress := compress }
  else
    .error ("unhandled LayerCompression value " ++ toString compress)

def BlobCache.Transport (b : BlobCache) : ImageTransport :=
  b.reference.transport

def BlobCache.StringWithinTransport (b : BlobCache) : String :=
  b.reference.stringWithinTransport

def BlobCache.DockerReference (b : BlobCache) : Option String :=
  b.reference.dockerReference

def BlobCache.PolicyConfigurationIdentity (b : BlobCache) : String :=
  b.reference.policyConfigurationIdentity

def BlobCache.PolicyConfigurationNamespaces (b : BlobCache) : List String :=
  b.reference.policyConfigurationNamespaces

def BlobCache.DeleteImage (b : BlobCache) (ctx : GoContext)
    (sys : Option SystemContext) : GoError :=
  b.reference.deleteImage ctx sys

/-- transports.ImageName applied to the BlobCache itself (it implements
types.ImageReference), as used in the ClearCache error message. -/
def BlobCache.imageName (b : BlobCache) : String :=
  b.Transport.name ++ ":" ++ b.StringWithinTransport

/-- os.Stat with the filesystem threaded through explicitly: stat reads
metadata and leaves the filesystem unchanged. -/
def osStatST (path : String) (fs : FS) : StatResult × FS :=
  (fs path, fs)

/-- The body of one iteration of the HasBlob probe loop, given the stat
outcome for the probed filename. Returns some result when the body returns
from HasBlob, none when the loop falls through to the next form:
* stat succeeded and the size matches (or the descriptor size is -1):
  return (true, actual size, nil);
* stat succeeded but the size does not match: err is nil, so
  os.IsNotExist(err) is false and the body returns
  (false, -1, perrors.Wrap(nil, "checking size")) — and Wrap of nil is nil;
* stat failed with a does-not-exist error: fall through;
* stat failed otherwise: return (false, -1, the wrapped stat error). -/
def probeOutcome (size : Int) : StatResult → Option (Bool × Int × GoError)
  | .ok fsize =>
    if size = -1 ∨ size = fsize then
      some (true, fsize, none)
    else
      some (false, -1, perrorsWrap none "checking size")
  | .notExist => none
  | .otherErr e => some (false, -1, perrorsWrap (some e) "checking size")

/-- HasBlob from blobcache.go, with the filesystem threaded through every
stat call (the method reads b's fields and never assigns them). An empty
digest short-circuits to (false, -1, nil); otherwise the loop probes
isConfig = false then isConfig = true. -/
def hasBlobST (b : BlobCache) (blobinfo : BlobInfo) (fs : FS) :
    (Bool × Int × GoError) × FS :=
  if blobinfo.digest = "" then ((false, -1, none), fs)
  else
    let s1 := osStatST (filepathJoin b.directory (makeFilename blobinfo.digest false)) fs
    match probeOutcome blobinfo.size s1.1 with
    | some r => (r, s1.2)
    | none =>
      let s2 := osStatST (filepathJoin b.directory (makeFilename blobinfo.digest true)) s1.2
      match probeOutcome blobinfo.size s2.1 with
      | some r => (r, s2.2)
      | none => ((false, -1, none), s2.2)

/-- The value HasBlob returns (found flag, size, error): the same
translation with the filesystem read but not threaded, since stat does not
modify it. The agreement with hasBlobST is proved below. -/
def hasBlob (b : BlobCache) (fs : FS) (blobinfo : BlobInfo) : Bool × Int × GoError :=
  if blobinfo.digest = "" then (false, -1, none)
  else
    match probeOutcome blobinfo.size
        (fs (filepathJoin b.directory (makeFilename blobinfo.digest false))) with
    | some r => r
    | none =>
      match probeOutcome blobinfo.size
          (fs (filepathJoin b.directory (makeFilename blobinfo.digest true))) with
      | some r => r
      | none => (false, -1, none)

/-- The path HasBlob probes first for a digest: the plain (non-config) form. -/
def plainPath (b : BlobCache) (d : Digest) : String :=
  filepathJoin b.directory (makeFilename d false)

/-- The path HasBlob probes second for a digest: the config form. -/
def configPath (b : BlobCache) (d : Digest) : String :=
  filepathJoin b.directory (makeFilename d true)

/-- Environment of one ClearCache call: the outcome of os.Open on the cache
directory (none = success), the outcome of Readdirnames (the listed names,
in listing order, or an error), and the outcome of os.RemoveAll per path
(none = success). -/
structure ClearEnv where
  openRes : Option String
  readRes : Except String (List String)
  removeRes : String → Option String

/-- The removal loop of ClearCache: remove each listed name in order,
accumulating the paths removed so far; the first failure aborts with the
wrapped error, keeping the removals already performed. -/
def clearLoop (b : BlobCache) (env : ClearEnv) :
    List String → List String → GoError × List String
  | [], removed => (none, removed)
  | name :: rest, removed =>
    let pathname := filepathJoin b.directory name
    match env.removeRes pathname with
    | some e =>
      (perrorsWrap (some e) ("clearing cache for \"" ++ b.imageName ++ "\""), removed)
    | none => clearLoop b env rest (removed ++ [pathname])

/-- ClearCache from blobcache.go. Returns the Go error and the list of
paths removed, in removal order. An os.Open failure is returned as-is
(the code returns err unwrapped); a Readdirnames failure is returned
wrapped; both happen before any removal. -/
def clearCache (b : BlobCache) (env : ClearEnv) : GoError × List String :=
  match env.openRes with
  | some e => (some e, [])
  | none =>
    match env.readRes with
    | .error e =>
      (perrorsWrap (some e) ("error reading directory \"" ++ b.directory ++ "\""), [])
    | .ok names => clearLoop b env names []

/-- Whether a Go error is a wrapping of the given cause in the pkg/errors
style: non-nil, distinct from the bare cause, and ending with a colon, a
space and the cause's message (annotation ++ ": " ++ cause). -/
def addsContext (result : GoError) (cause : String) : Bool :=
  match result with
  | none => false
  | some s => s ≠ cause && String.endsWith s (": " ++ cause)

/-- Characters the go-digest grammar allows in the encoded part of a digest
(the regex class of letters, digits, equals, underscore, hyphen); a period
and a colon in particular are excluded. -/
def validEncChar (c : Char) : Bool :=
  (('a' ≤ c && c ≤ 'z') || ('A' ≤ c && c ≤ 'Z') || ('0' ≤ c && c ≤ '9')
    || c = '=' || c = '_' || c = '-')

/-- Well-formedness of a digest string, from the go-digest grammar: a
non-empty algorithm part without a colon, the colon separator, then a
non-empty encoded part of valid encoded characters. (The finer go-digest
sub-grammar of the algorithm part is not needed and not imposed, so this
accepts a superset of the valid digests.) -/
def wellFormedDigest (d : Digest) : Bool :=
  match d.data.dropWhile (fun c => c ≠ ':') with
  | ':' :: enc =>
    !(d.data.takeWhile (fun c => c ≠ ':')).isEmpty && !enc.isEmpty &&
      enc.all validEncChar
  | _ => false

/-- A concrete remote endpoint used by the concrete witnesses below. -/
def refW : ImageReference where
  transport := { name := "docker" }
  stringWithinTransport := "//example/img"
  dockerReference := some "example/img"
  policyConfigurationIdentity := "example/img"
  policyConfigurationNamespaces := ["example"]
  deleteImage := fun _ _ => none

/-- A concrete cache store used by the concrete witnesses below. -/
def bW : BlobCache where
  reference := refW
  directory := "cache"
  compress := PreserveOriginal

/-- A filesystem where the digest sha256:aa is stored in the plain form
with size 5 and in the config form with size 3. -/
def fsBoth : FS := fun p =>
  if p = "cache/sha256:aa" then .ok 5
  else if p = "cache/sha256:aa.config" then .ok 3
  else .notExist

/-- A filesystem where the digest sha256:aa is stored in the plain form
only, with size 5. -/
def fsPlainOnly : FS := fun p =>
  if p = "cache/sha256:aa" then .ok 5 else .notExist

/-- A filesystem where stat on the plain form of sha256:aa fails with a
non-not-exist error. -/
def fsStatErr : FS := fun p =>
  if p = "cache/sha256:aa" then .otherErr "stat cache/sha256:aa: permission denied"
  else .notExist

/-- A ClearCache environment whose os.Open call fails. -/
def envOpenFail : ClearEnv where
  openRes := some "open failed"
  readRes := .ok []
  removeRes := fun _ => none

/-- A ClearCache environment listing two entries, where removing the second
one fails. -/
def envRemoveFail : ClearEnv where
  openRes := none
  readRes := .ok ["a", "b"]
  removeRes := fun p => if p = "cache/b" then some "busy" else none

/-! Helper lemmas (shared; not claim theorems). -/

/-- The removal loop removes every listed name, in listing order, when no
removal fails. -/
theorem clearLoop_ok (b : BlobCache) (env : ClearEnv) :
    ∀ (names acc : List String),
      (∀ m ∈ names, env.removeRes (filepathJoin b.directory m) = none) →
      clearLoop b env names acc =
        (none, acc ++ names.map (fun m => filepathJoin b.directory m))
  | [], acc, _ => by simp [clearLoop]
  | name :: rest, acc, h => by
    have hname := h name (List.mem_cons_self name rest)
    have hrest := clearLoop_ok b env rest (acc ++ [filepathJoin b.directory name])
      (fun m hm => h m (List.mem_cons_of_mem _ hm))
    simp [clearLoop, hname, hrest]

/-- The removal loop stops at the first failing removal, returning the
wrapped error and keeping exactly the removals performed before it. -/
theorem clearLoop_fail (b : BlobCache) (env : ClearEnv) (e name : String)
    (post : List String)
    (he : env.removeRes (filepathJoin b.directory name) = some e) :
    ∀ (pre acc : List String),
      (∀ m ∈ pre, env.removeRes (filepathJoin b.directory m) = none) →
      clearLoop b env (pre ++ name :: post) acc =
        (perrorsWrap (some e) ("clearing cache for \"" ++ b.imageName ++ "\""),
         acc ++ pre.map (fun m => filepathJoin b.directory m))
  | [], acc, _ => by simp [clearLoop, he]
  | m :: pre, acc, h => by
    have hm := h m (List.mem_cons_self m pre)
    have hrec := clearLoop_fail b env e name post he pre
      (acc ++ [filepathJoin b.directory m])
      (fun x hx => h x (List.mem_cons_of_mem _ hx))
    simp [clearLoop, hm, hrec]

/-- A well-formed digest string splits as algorithm, colon, encoded part,
with the encoded part non-empty and made of valid encoded characters. -/
theorem wellFormedDigest_split (d : Digest) (h : wellFormedDigest d = true) :
    ∃ algo enc : List Char, d.data = algo ++ ':' :: enc ∧ enc ≠ [] ∧
      ∀ c ∈ enc, validEncChar c = true := by
  unfold wellFormedDigest at h
  split at h
  next enc heq =>
    refine ⟨d.data.takeWhile (fun c => c ≠ ':'), enc, ?_, ?_, ?_⟩
    · conv_lhs => rw [← List.takeWhile_append_dropWhile (fun c => decide (c ≠ ':')) d.data]
      rw [heq]
    · intro henc
      rw [henc] at h
      simp at h
    · intro c hc
      simp only [Bool.and_eq_true, List.all_eq_true] at h
      exact h.2 c hc
  next => simp at h

/-- No well-formed digest string is some string followed by the config
suffix: the suffix's period would have to lie in the encoded part, or the
digest's colon would have to lie inside the suffix. -/
theorem wf_no_config_suffix (d t : Digest) (h : wellFormedDigest d = true)
    (heq : d.data = t.data ++ (".config").data) : False := by
  obtain ⟨algo, enc, hsplit, hne, hvalid⟩ := wellFormedDigest_split d h
  have hsuf1 : (':' :: enc) <:+ d.data := ⟨algo, hsplit.symm⟩
  have hsuf2 : (".config").data <:+ d.data := ⟨t.data, heq.symm⟩
  rcases Nat.le_total ((':' :: enc).length) (((".config").data).length) with hle | hle
  · have hss : (':' :: enc) <:+ (".config").data :=
      List.suffix_of_suffix_length_le hsuf1 hsuf2 hle
    have hcolon : (':' : Char) ∈ (".config").data :=
      hss.subset (List.mem_cons_self _ _)
    exact absurd hcolon (by decide)
  · have hss : (".config").data <:+ (':' :: enc) :=
      List.suffix_of_suffix_length_le hsuf2 hsuf1 hle
    have hdot : ('.' : Char) ∈ (':' :: enc) := hss.subset (by decide)
    rcases List.mem_cons.mp hdot with h1 | h2
    · exact absurd h1 (by decide)
    · exact absurd (hvalid _ h2) (by decide)

/-! Theorems for the claims. -/

/-- C1: for a digest whose plain (non-config) entry is stored with byte
length n, HasBlob with descriptor size n answers (true, n, nil); with
descriptor size n+1 it answers (false, -1, nil); and with descriptor size
-1 it answers (true, n, nil). -/
theorem hasBlob_stored_plain_sizes (b : BlobCache) (fs : FS) (d : Digest) (n : Int)
    (hd : d ≠ "") (hn : 0 ≤ n) (hstored : fs (plainPath b d) = .ok n) :
    hasBlob b fs ⟨d, n, false⟩ = (true, n, none) ∧
    hasBlob b fs ⟨d, n + 1, false⟩ = (false, -1, none) ∧
    hasBlob b fs ⟨d, -1, false⟩ = (true, n, none) := by
  simp only [plainPath] at hstored
  have hne1 : ¬ (n + 1 = -1) := by omega
  have hne2 : ¬ (n + 1 = n) := by omega
  refine ⟨?_, ?_, ?_⟩ <;>
    simp [hasBlob, probeOutcome, hd, hstored, perrorsWrap, hne1, hne2]

/-- C1 witness: concrete store, filesystem and digest. -/
theorem hasBlob_stored_plain_sizes_witness :
    hasBlob bW fsPlainOnly ⟨"sha256:aa", 5, false⟩ = (true, 5, none) ∧
    hasBlob bW fsPlainOnly ⟨"sha256:aa", 5 + 1, false⟩ = (false, -1, none) ∧
    hasBlob bW fsPlainOnly ⟨"sha256:aa", -1, false⟩ = (true, 5, none) :=
  hasBlob_stored_plain_sizes bW fsPlainOnly "sha256:aa" 5 (by decide) (by decide) rfl

/-- C2 counterexample: the digest sha256:aa is stored in config form with
size 3 (and in plain form with size 5); the claim says HasBlob with
descriptor size 3 reports found, but the code answers (false, -1, nil):
the mismatching plain stat returns immediately, because err is nil there,
os.IsNotExist(nil) is false, and perrors.Wrap(nil, ...) is nil. -/
theorem hasBlob_config_shadowed_cex :
    fsBoth (configPath bW "sha256:aa") = .ok 3 ∧
    hasBlob bW fsBoth ⟨"sha256:aa", 3, false⟩ = (false, -1, none) := by
  exact ⟨rfl, rfl⟩

/-- C2 amended: HasBlob probes the plain form first; a matching plain stat
(or descriptor size -1) reports found; a plain stat that succeeds with a
non-matching size returns (false, -1, nil) immediately, without consulting
the config form; the config form is probed only when the plain form does
not exist, under the same size rule; if neither probe matches, the result
is (false, -1, nil). -/
theorem hasBlob_probe_semantics (b : BlobCache) (fs : FS) (d : Digest) (sz : Int)
    (ic : Bool) (hd : d ≠ "") :
    (∀ n, fs (plainPath b d) = .ok n → (sz = -1 ∨ sz = n) →
      hasBlob b fs ⟨d, sz, ic⟩ = (true, n, none)) ∧
    (∀ n, fs (plainPath b d) = .ok n → sz ≠ -1 → sz ≠ n →
      hasBlob b fs ⟨d, sz, ic⟩ = (false, -1, none)) ∧
    (∀ n, fs (plainPath b d) = .notExist → fs (configPath b d) = .ok n →
      (sz = -1 ∨ sz = n) → hasBlob b fs ⟨d, sz, ic⟩ = (true, n, none)) ∧
    (∀ n, fs (plainPath b d) = .notExist → fs (configPath b d) = .ok n →
      sz ≠ -1 → sz ≠ n → hasBlob b fs ⟨d, sz, ic⟩ = (false, -1, none)) ∧
    (fs (plainPath b d) = .notExist → fs (configPath b d) = .notExist →
      hasBlob b fs ⟨d, sz, ic⟩ = (false, -1, none)) := by
  simp only [plainPath, configPath]
  refine ⟨?_, ?_, ?_, ?_, ?_⟩
  · intro n hp hm
    simp [hasBlob, probeOutcome, hd, hp, hm]
  · intro n hp hm1 hm2
    simp [hasBlob, probeOutcome, hd, hp, hm1, hm2, perrorsWrap]
  · intro n hp hc hm
    simp [hasBlob, probeOutcome, hd, hp, hc, hm]
  · intro n hp hc hm1 hm2
    simp [hasBlob, probeOutcome, hd, hp, hc, hm1, hm2, perrorsWrap]
  · intro hp hc
    simp [hasBlob, probeOutcome, hd, hp, hc]

/-- C2 amended witness: a matching plain probe on a concrete filesystem. -/
theorem hasBlob_probe_semantics_witness :
    hasBlob bW fsBoth ⟨"sha256:aa", 5, false⟩ = (true, 5, none) :=
  (hasBlob_probe_semantics bW fsBoth "sha256:aa" 5 false (by decide)).1 5 rfl
    (Or.inr rfl)

/-- C3: with an empty digest, HasBlob answers (false, -1, nil) whatever the
size field is, and the answer does not depend on the filesystem at all (no
filesystem access is made). -/
theorem hasBlob_empty_digest (b : BlobCache) (fs fs2 : FS) (sz : Int) (ic : Bool) :
    hasBlob b fs ⟨"", sz, ic⟩ = (false, -1, none) ∧
    hasBlob b fs ⟨"", sz, ic⟩ = hasBlob b fs2 ⟨"", sz, ic⟩ := by
  exact ⟨rfl, rfl⟩

/-- C4: a stat failure other than not-exist stops the probing and is
returned wrapped with the operation annotation (the stat error's own
message names the path), with found = false and size = -1; it is never
reported as a plain not-found. This holds both when the plain probe fails
that way (the config form is then never consulted) and when the plain form
does not exist and the config probe fails that way. -/
theorem hasBlob_stat_error_propagates (b : BlobCache) (fs : FS) (d : Digest)
    (sz : Int) (ic : Bool) (e : String) (hd : d ≠ "") :
    (fs (plainPath b d) = .otherErr e →
      hasBlob b fs ⟨d, sz, ic⟩ = (false, -1, some ("checking size: " ++ e))) ∧
    (fs (plainPath b d) = .notExist → fs (configPath b d) = .otherErr e →
      hasBlob b fs ⟨d, sz, ic⟩ = (false, -1, some ("checking size: " ++ e))) := by
  simp only [plainPath, configPath]
  constructor
  · intro hp
    simp [hasBlob, probeOutcome, hd, hp, perrorsWrap]
  · intro hp hc
    simp [hasBlob, probeOutcome, hd, hp, hc, perrorsWrap]

/-- C4 witness: a permission failure on the plain form's stat. -/
theorem hasBlob_stat_error_propagates_witness :
    hasBlob bW fsStatErr ⟨"sha256:aa", -1, false⟩ =
      (false, -1, some ("checking size: " ++ "stat cache/sha256:aa: permission denied")) :=
  (hasBlob_stat_error_propagates bW fsStatErr "sha256:aa" (-1) false
    "stat cache/sha256:aa: permission denied" (by decide)).1 rfl

/-- C5: NewBlobCache succeeds exactly when the directory is non-empty and
the compression policy is one of the three recognized values, and then the
returned store holds exactly the given reference, directory and policy;
any successful result carries those exact fields. The constructor is a
pure function of its arguments (no filesystem parameter), so it performs
no directory creation or other I/O. -/
theorem newBlobCache_spec (ref : ImageReference) (dir : String)
    (c : LayerCompression) :
    (NewBlobCache ref dir c =
        .ok { reference := ref, directory := dir, compress := c } ↔
      dir ≠ "" ∧ (c = Compress ∨ c = Decompress ∨ c = PreserveOriginal)) ∧
    (∀ b, NewBlobCache ref dir c = .ok b →
      b = { reference := ref, directory := dir, compress := c }) := by
  by_cases hd : dir = ""
  · simp [NewBlobCache, hd]
  · by_cases hc : c = Compress ∨ c = Decompress ∨ c = PreserveOriginal
    · constructor
      · simp [NewBlobCache, hd, hc]
      · intro b h
        simp [NewBlobCache, hd, hc] at h
        exact h.symm
    · simp [NewBlobCache, hd, hc]

/-- C5 witness: a concrete successful construction. -/
theorem newBlobCache_spec_witness :
    NewBlobCache refW "cache" Compress =
      .ok { reference := refW, directory := "cache", compress := Compress } :=
  (newBlobCache_spec refW "cache" Compress).1.mpr ⟨by decide, Or.inl rfl⟩

/-- C6 counterexample: when os.Open on the cache directory fails, the code
returns that error as-is (return err), with no wrapping annotation added,
while the claim says opening failures are wrapped. -/
theorem clearCache_open_error_unwrapped_cex :
    clearCache bW envOpenFail = (some "open failed", []) ∧
    addsContext (clearCache bW envOpenFail).1 "open failed" = false := by
  exact ⟨rfl, rfl⟩

/-- C6 amended: ClearCache removes every listed entry in listing order when
all removals succeed; on the first removal failure it stops and returns the
wrapped error, the entries removed before the failure staying removed; a
failure to open the directory is returned as-is (unwrapped) before any
removal; a failure to list the directory is returned wrapped before any
removal. -/
theorem clearCache_spec (b : BlobCache) (env : ClearEnv) :
    (∀ e, env.openRes = some e → clearCache b env = (some e, [])) ∧
    (∀ e, env.openRes = none → env.readRes = .error e →
      clearCache b env =
        (perrorsWrap (some e) ("error reading directory \"" ++ b.directory ++ "\""),
         [])) ∧
    (∀ names, env.openRes = none → env.readRes = .ok names →
      (∀ m ∈ names, env.removeRes (filepathJoin b.directory m) = none) →
      clearCache b env = (none, names.map (fun m => filepathJoin b.directory m))) ∧
    (∀ pre name post e, env.openRes = none → env.readRes = .ok (pre ++ name :: post) →
      (∀ m ∈ pre, env.removeRes (filepathJoin b.directory m) = none) →
      env.removeRes (filepathJoin b.directory name) = some e →
      clearCache b env =
        (perrorsWrap (some e) ("clearing cache for \"" ++ b.imageName ++ "\""),
         pre.map (fun m => filepathJoin b.directory m))) := by
  refine ⟨?_, ?_, ?_, ?_⟩
  · intro e h
    simp [clearCache, h]
  · intro e ho hr
    simp [clearCache, ho, hr]
  · intro names ho hr hnone
    simp [clearCache, ho, hr, clearLoop_ok b env names [] hnone]
  · intro pre name post e ho hr hpre hname
    simp [clearCache, ho, hr, clearLoop_fail b env e name post hname pre [] hpre]

/-- C6 amended witness: removing the first of two entries succeeds, the
second fails; the first stays removed and the error is wrapped. -/
theorem clearCache_spec_witness :
    clearCache bW envRemoveFail =
      (perrorsWrap (some "busy") ("clearing cache for \"" ++ bW.imageName ++ "\""),
       ["a"].map (fun m => filepathJoin bW.directory m)) :=
  (clearCache_spec bW envRemoveFail).2.2.2 ["a"] "b" [] "busy" rfl rfl
    (by intro m hm; simp at hm; subst hm; rfl) rfl

/-- C7: each identity/lifecycle operation of the cache store returns
exactly the result of the same operation on the wrapped remote endpoint
with the same arguments. -/
theorem blobCache_delegates (b : BlobCache) (ctx : GoContext)
    (sys : Option SystemContext) :
    b.Transport = b.reference.transport ∧
    b.StringWithinTransport = b.reference.stringWithinTransport ∧
    b.DockerReference = b.reference.dockerReference ∧
    b.PolicyConfigurationIdentity = b.reference.policyConfigurationIdentity ∧
    b.PolicyConfigurationNamespaces = b.reference.policyConfigurationNamespaces ∧
    b.DeleteImage ctx sys = b.reference.deleteImage ctx sys := by
  exact ⟨rfl, rfl, rfl, rfl, rfl, rfl⟩

/-- C8: the filename scheme appends the fixed config suffix exactly for
config blobs, and on well-formed digests no two distinct (digest, isConfig)
pairs map to the same filename. -/
theorem makeFilename_injective (d1 d2 : Digest) (c1 c2 : Bool)
    (h1 : wellFormedDigest d1 = true) (h2 : wellFormedDigest d2 = true)
    (heq : makeFilename d1 c1 = makeFilename d2 c2) :
    (makeFilename d1 true = d1 ++ ".config" ∧ makeFilename d1 false = d1) ∧
    d1 = d2 ∧ c1 = c2 := by
  refine ⟨⟨rfl, rfl⟩, ?_⟩
  cases c1 <;> cases c2 <;> simp only [makeFilename, Bool.false_eq_true, if_neg,
    if_pos, not_false_eq_true, reduceIte] at heq
  · exact ⟨heq, rfl⟩
  · exfalso
    apply wf_no_config_suffix d1 d2 h1
    rw [heq]
    simp
  · exfalso
    apply wf_no_config_suffix d2 d1 h2
    rw [← heq]
    simp
  · have hdata : d1.data ++ (".config").data = d2.data ++ (".config").data := by
      have h := congrArg String.data heq
      simpa using h
    exact ⟨String.ext (List.append_cancel_right hdata), rfl⟩

/-- C8 witness: a concrete well-formed digest. -/
theorem makeFilename_injective_witness :
    (makeFilename "sha256:aa" true = "sha256:aa" ++ ".config" ∧
      makeFilename "sha256:aa" false = "sha256:aa") ∧
    "sha256:aa" = "sha256:aa" ∧ true = true :=
  makeFilename_injective "sha256:aa" "sha256:aa" true true rfl rfl rfl

/-- C9: HasBlob is read-only: the state-threaded translation returns the
filesystem unchanged, its value component agrees with the pure hasBlob,
and any later HasBlob call observes the same answers as before (the store
itself is immutable: the method never assigns to b's fields). -/
theorem hasBlob_readonly (b : BlobCache) (info : BlobInfo) (fs : FS) :
    (hasBlobST b info fs).2 = fs ∧
    (hasBlobST b info fs).1 = hasBlob b fs info ∧
    ∀ info2, hasBlob b (hasBlobST b info fs).2 info2 = hasBlob b fs info2 := by
  have h2 : (hasBlobST b info fs).2 = fs := by
    unfold hasBlobST osStatST
    split
    · rfl
    · dsimp only
      rcases probeOutcome info.size
          (fs (filepathJoin b.directory (makeFilename info.digest false))) with _ | r
      · rcases probeOutcome info.size
            (fs (filepathJoin b.directory (makeFilename info.digest true))) with _ | r2
        · rfl
        · rfl
      · rfl
  have h1 : (hasBlobST b info fs).1 = hasBlob b fs info := by
    unfold hasBlobST hasBlob osStatST
    split
    · rfl
    · dsimp only
      rcases probeOutcome info.size
          (fs (filepathJoin b.directory (makeFilename info.digest false))) with _ | r
      · rcases probeOutcome info.size
            (fs (filepathJoin b.directory (makeFilename info.digest true))) with _ | r2
        · rfl
        · rfl
      · rfl
  exact ⟨h2, h1, fun info2 => by rw [h2]⟩

/-- C10: when a digest is stored in both the plain and the config form,
HasBlob with descriptor size -1 answers with the plain entry's size: the
plain form is probed first. -/
theorem hasBlob_plain_precedence (b : BlobCache) (fs : FS) (d : Digest) (ic : Bool)
    (ns nc : Int) (hd : d ≠ "")
    (hplain : fs (plainPath b d) = .ok ns) (_hconfig : fs (configPath b d) = .ok nc) :
    hasBlob b fs ⟨d, -1, ic⟩ = (true, ns, none) := by
  simp only [plainPath] at hplain
  simp [hasBlob, probeOutcome, hd, hplain]

/-- C10 witness: both forms stored with different sizes; the plain size
wins. -/
theorem hasBlob_plain_precedence_witness :
    hasBlob bW fsBoth ⟨"sha256:aa", -1, false⟩ = (true, 5, none) :=
  hasBlob_plain_precedence bW fsBoth "sha256:aa" false 5 3 (by decide) rfl rfl
